import Mathlib

/-!
Verification of the AP election query engine (`src/mcp_server.py`,
`src/data_loader.py`) against its natural-language specification.

The data model is a shallow embedding of the post-load state of
`ElectionData`: a dataset is an ordered association list from year strings to
tables; a table holds the sheet's column list and its rows; a row is the
ordered dict produced by `row.iloc[0].to_dict()`, i.e. an association list
from (upper-cased) column names to cell values.  Cell values are Python ints
or strings (`PyVal`).  Arithmetic on a string cell raises a `TypeError` in
Python; every operation is therefore embedded as an `Option`-valued function
where `none` models an unhandled Python exception and `some` the returned
JSON payload (a typed success or a typed `{"error": ...}` dict, `Res`).

Numeric policy: Python computes shares with float division and `round(x, 2)`.
The embedding computes the same expressions over `ℚ` and models `round` with
`pyRound2`, round-half-to-even at ties, which is exactly Python's behaviour
whenever the intermediate float value is exact (all concrete inputs used
below are chosen to be float-exact, e.g. `1/32 * 100 = 3.125`).
-/

namespace APElection

inductive PyVal where
  | int : Int → PyVal
  | str : String → PyVal
deriving DecidableEq, Repr

abbrev Row := List (String × PyVal)

structure Table where
  cols : List String
  rows : List Row
deriving DecidableEq, Repr

abbrev Dataset := List (String × Table)

/-- Success-or-error result shape: every endpoint returns either a payload or
a dict `{"error": msg}`. -/
inductive Res (α : Type) where
  | ok : α → Res α
  | err : String → Res α
deriving DecidableEq, Repr

/-- `PARTIES_KEY = {"AC_NO", "AC_NAME", "TOTAL_VOTES"}` in `mcp_server.py`. -/
def reservedKeys : List String := ["AC_NO", "AC_NAME", "TOTAL_VOTES"]

def rowKeys (r : Row) : List String := r.map (·.1)

/-- `_get_parties(row)`: the row dict's keys that are not reserved, in dict
(= source column) order. -/
def getPartiesRow (r : Row) : List String :=
  (rowKeys r).filter (fun k => !(reservedKeys.contains k))

/-- Extract a Python int; a string cell used in arithmetic is a `TypeError`. -/
def toIntOpt : PyVal → Option Int
  | .int n => some n
  | .str _ => none

/-- `row.get(k, 0)`. -/
def pyGet0 (r : Row) (k : String) : PyVal := (List.lookup k r).getD (.int 0)

/-- Python truthiness of a cell value. -/
def pyTruthy : PyVal → Bool
  | .int n => n != 0
  | .str s => s != ""

/-- `str.upper()` (ASCII). -/
def pyUpper (s : String) : String := ⟨s.data.map Char.toUpper⟩

/-- `str.strip()`: drop leading and trailing whitespace. -/
def pyStrip (s : String) : String :=
  ⟨((s.data.dropWhile Char.isWhitespace).reverse.dropWhile Char.isWhitespace).reverse⟩

/-- Floor of a rational as an integer (denominators are positive). -/
def ratFloor (q : ℚ) : ℤ := q.num.fdiv (q.den : ℤ)

/-- Round to the nearest integer, ties to the even integer: the behaviour of
Python's `round` (and numpy's) on exactly representable ties. -/
def roundHalfEvenInt (q : ℚ) : ℤ :=
  let f := ratFloor q
  if q - (f : ℚ) < 1/2 then f
  else if (1 : ℚ)/2 < q - (f : ℚ) then f + 1
  else if f % 2 = 0 then f else f + 1

/-- `round(x, 2)` modelled exactly over `ℚ`. -/
def pyRound2 (q : ℚ) : ℚ := (roundHalfEvenInt (q * 100) : ℚ) / 100

/-- Round to the nearest integer, ties away from zero upward ("half-up"). -/
def roundHalfUpInt (q : ℚ) : ℤ := ratFloor (q + 1/2)

/-- Half-up rounding to 2 decimal places, as the spec's wording asks for. -/
def halfUp2 (q : ℚ) : ℚ := (roundHalfUpInt (q * 100) : ℚ) / 100

/-- Share formula as the source computes it (`round(v / t * 100, 2) if t else 0`),
on integer cells. -/
def specShareEven (votes total : ℤ) : ℚ :=
  if total = 0 then 0 else pyRound2 ((votes : ℚ) / (total : ℚ) * 100)

/-- Share formula read literally from claim C2's words: half-up rounding. -/
def specShareHalfUp (votes total : ℤ) : ℚ :=
  if total = 0 then 0 else halfUp2 ((votes : ℚ) / (total : ℚ) * 100)

/-- `round(votes / total * 100, 2) if total else 0` on raw cells; `none` is a
`TypeError` (string cell in arithmetic). -/
def shareIf (votes total : PyVal) : Option ℚ :=
  if pyTruthy total then
    match toIntOpt votes, toIntOpt total with
    | some v, some t => some (pyRound2 ((v : ℚ) / (t : ℚ) * 100))
    | _, _ => none
  else some 0

/-- Sequential effectful map over `Option`, modelling a Python loop that
aborts the call on the first unhandled exception. -/
def omap {α β : Type} (f : α → Option β) : List α → Option (List β)
  | [] => some []
  | a :: as =>
    match f a, omap f as with
    | some b, some bs => some (b :: bs)
    | _, _ => none

/-- Fold keeping the first-seen maximum of the second components, as Python's
`max(..., key=...)` does (strict improvement replaces). -/
def maxFirst : (String × Int) → List (String × Int) → (String × Int)
  | best, [] => best
  | best, q :: qs => maxFirst (if best.2 < q.2 then q else best) qs

/-- `max(parties, key=lambda p: row.get(p, 0))`; `none` on an empty list or a
string-valued cell. -/
def pyMaxBy (r : Row) : List String → Option (String × Int)
  | [] => none
  | p :: ps =>
    match toIntOpt (pyGet0 r p),
          omap (fun q => (toIntOpt (pyGet0 r q)).map (fun w => (q, w))) ps with
    | some v, some rest => some (maxFirst (p, v) rest)
    | _, _ => none

/-- `ElectionData.find_ac`: first row of the year's table whose `AC_NO` cell
equals `ac`; `None` when the year or the row is absent. -/
def findAc (D : Dataset) (year : String) (ac : Int) : Option Row :=
  (List.lookup year D).bind fun t =>
    t.rows.find? (fun r => List.lookup "AC_NO" r == some (.int ac))

/-- `get_ac_results`: top-level error on an unknown year, else one entry per
requested AC (`none` models the "Not found" marker). -/
def getAcResults (D : Dataset) (year : String) (acs : List Int) :
    Res (List (Int × Option Row)) :=
  match List.lookup year D with
  | none => .err ("Invalid year '" ++ year ++ "'")
  | some _ => .ok (acs.map fun ac => (ac, findAc D year ac))

structure WinnerPayload where
  ac_no : Int
  ac_name : PyVal
  year : String
  winner : String
  votes : PyVal
  vote_share_pct : ℚ
  total_votes : PyVal
deriving DecidableEq, Repr

/-- `get_winner`. -/
def getWinner (D : Dataset) (year : String) (ac : Int) : Option (Res WinnerPayload) :=
  match findAc D year ac with
  | none => some (.err ("AC " ++ toString ac ++ " not found in year " ++ year))
  | some row =>
    let parties := getPartiesRow row
    if parties.isEmpty then some (.err "No party data found")
    else
      match pyMaxBy row parties with
      | none => none
      | some wv =>
        match List.lookup wv.1 row with
        | none => none
        | some winnerVotes =>
          match shareIf winnerVotes (pyGet0 row "TOTAL_VOTES"),
                List.lookup "AC_NAME" row with
          | some sh, some nm =>
            some (.ok ⟨ac, nm, year, wv.1, winnerVotes, sh, pyGet0 row "TOTAL_VOTES"⟩)
          | _, _ => none

structure SharePayload where
  ac_no : Int
  ac_name : PyVal
  year : String
  party : String
  votes : PyVal
  total_votes : PyVal
  vote_share_pct : ℚ
deriving DecidableEq, Repr

/-- `get_party_vote_share`.  Note the source checks `party not in row`, i.e.
membership in the full row dict (reserved keys included), not in
`_get_parties(row)`. -/
def getPartyVoteShare (D : Dataset) (year : String) (ac : Int) (party0 : String) :
    Option (Res SharePayload) :=
  match findAc D year ac with
  | none => some (.err ("AC " ++ toString ac ++ " not found in year " ++ year))
  | some row =>
    let party := pyUpper party0
    match List.lookup party row with
    | none => some (.err ("Party '" ++ party ++ "' not in dataset"))
    | some votes =>
      match shareIf votes (pyGet0 row "TOTAL_VOTES"), List.lookup "AC_NAME" row with
      | some sh, some nm =>
        some (.ok ⟨ac, nm, year, party, votes, pyGet0 row "TOTAL_VOTES", sh⟩)
      | _, _ => none

inductive SwingEntry where
  | err : Int → String → SwingEntry
  | ok : Int → PyVal → String → ℚ → ℚ → ℚ → SwingEntry
deriving DecidableEq, Repr

def SwingEntry.acOf : SwingEntry → Int
  | .err a _ => a
  | .ok a _ _ _ _ _ => a

/-- One iteration of the `compute_vote_swing` loop: per-AC error entries for a
missing row or party, else the populated entry with
`swing = round(share_to - share_from, 2)`. -/
def swingOne (D : Dataset) (yf yt : String) (party : String) (ac : Int) :
    Option SwingEntry :=
  match findAc D yf ac with
  | none => some (.err ac ("Not found in " ++ yf))
  | some rf =>
    match findAc D yt ac with
    | none => some (.err ac ("Not found in " ++ yt))
    | some rt =>
      match List.lookup party rf, List.lookup party rt with
      | some vf, some vt =>
        match shareIf vf (pyGet0 rf "TOTAL_VOTES"),
              shareIf vt (pyGet0 rt "TOTAL_VOTES"),
              List.lookup "AC_NAME" rf with
        | some sf, some st, some nm =>
          some (.ok ac nm party sf st (pyRound2 (st - sf)))
        | _, _, _ => none
      | _, _ => some (.err ac ("Party '" ++ party ++ "' not in dataset"))

structure SwingResult where
  swing_results : List SwingEntry
  year_from : String
  year_to : String
deriving DecidableEq, Repr

/-- `compute_vote_swing`: the loop appends one entry per requested AC; the
return shape has no top-level error case. -/
def computeVoteSwing (D : Dataset) (acs : List Int) (party0 yf yt : String) :
    Option SwingResult :=
  match omap (swingOne D yf yt (pyUpper party0)) acs with
  | none => none
  | some es => some ⟨es, yf, yt⟩

structure Scored where
  row : Row
  votes : Int
  total : Int
  share : ℚ
deriving DecidableEq, Repr

/-- Per-row share column `(df[party] / df["TOTAL_VOTES"] * 100).round(2)`.
A zero total produces a non-finite float in pandas rather than an exception;
such rows are outside this model's domain (`none`), and every theorem about
`getTopConstituencies` hypothesises nonzero totals. -/
def scoreRow (party : String) (r : Row) : Option Scored :=
  match (List.lookup party r).bind toIntOpt, (List.lookup "TOTAL_VOTES" r).bind toIntOpt with
  | some v, some t =>
    if t = 0 then none
    else some ⟨r, v, t, pyRound2 ((v : ℚ) / (t : ℚ) * 100)⟩
  | _, _ => none

/-- Insert keeping ascending share order; an equal share goes after the
existing elements (stable insertion). -/
def insertAsc (x : Scored) : List Scored → List Scored
  | [] => [x]
  | y :: ys => if x.share < y.share then x :: y :: ys else y :: insertAsc x ys

def sortAscShare : List Scored → List Scored
  | [] => []
  | x :: xs => insertAsc x (sortAscShare xs)

def insertDesc (x : Scored) : List Scored → List Scored
  | [] => [x]
  | y :: ys => if y.share < x.share then x :: y :: ys else y :: insertDesc x ys

def sortDescShare : List Scored → List Scored
  | [] => []
  | x :: xs => insertDesc x (sortDescShare xs)

/-- `df.head(n)`: the first `n` rows for `n ≥ 0`; for negative `n`, all rows
except the last `|n|` (pandas mirrors `df[:n]`). -/
def pyHead (n : Int) (l : List Scored) : List Scored :=
  if 0 ≤ n then l.take n.toNat else l.take (l.length - (-n).toNat)

structure TopEntry where
  ac_no : Int
  ac_name : PyVal
  votes : Int
  total_votes : Int
  vote_share_pct : ℚ
deriving DecidableEq, Repr

structure TopPayload where
  party : String
  year : String
  order : String
  results : List TopEntry
deriving DecidableEq, Repr

/-- `get_top_constituencies`.  The source sorts with
`df.sort_values("vote_share_pct", ascending=req.bottom)` whose default kind is
numpy's unstable introsort; the model uses a stable insertion sort, which
agrees with the source on tables small enough for numpy's insertion-sort
cutoff and on all tables whose shares are pairwise distinct.  Note the party
check is `party not in df.columns`, so reserved columns pass it. -/
def getTopConstituencies (D : Dataset) (party0 year : String) (top_n : Int)
    (bottom : Bool) : Option (Res TopPayload) :=
  let party := pyUpper party0
  match List.lookup year D with
  | none => some (.err ("Invalid year '" ++ year ++ "'"))
  | some t =>
    if !(t.cols.contains party) then
      some (.err ("Party '" ++ party ++ "' not found in " ++ year))
    else
      match omap (scoreRow party) t.rows with
      | none => none
      | some scored =>
        let sorted := if bottom then sortAscShare scored else sortDescShare scored
        let top := pyHead top_n sorted
        match omap (fun s =>
            match (List.lookup "AC_NO" s.row).bind toIntOpt,
                  List.lookup "AC_NAME" s.row with
            | some acV, some nm =>
              some (⟨acV, nm, s.votes, s.total, s.share⟩ : TopEntry)
            | _, _ => none) top with
        | none => none
        | some results =>
          some (.ok ⟨party, year, (if bottom then "bottom" else "top"), results⟩)

/-- `df[parties].idxmax(axis=1)` on one row: label of the first column
attaining the maximum value, in column order. -/
def idxmaxRow (parties : List String) (r : Row) : Option String :=
  match omap (fun p => ((List.lookup p r).bind toIntOpt).map (fun v => (p, v))) parties with
  | none => none
  | some [] => none
  | some (x :: xs) => some (maxFirst x xs).1

structure PartySummaryEntry where
  total_votes : Int
  vote_share_pct : ℚ
  seats_won : Nat
deriving DecidableEq, Repr

structure StateSummary where
  year : String
  total_votes_polled : Int
  total_constituencies : Nat
  party_summary : List (String × PartySummaryEntry)
deriving DecidableEq, Repr

/-- Column extraction `df[c]` as integers; `none` on a missing column or a
string cell used in arithmetic. -/
def colInt (t : Table) (c : String) : Option (List Int) :=
  omap (fun r => (List.lookup c r).bind toIntOpt) t.rows

/-- One iteration of the `get_state_party_summary` loop for party `p`:
`p_votes = df[p].sum()`, `share = round(p_votes/total_votes*100, 2) if
total_votes else 0`, `seats_won = (df[parties].idxmax(axis=1) == p).sum()`. -/
def summaryEntry (t : Table) (parties : List String) (total : Int) (p : String) :
    Option (String × PartySummaryEntry) :=
  match colInt t p, omap (idxmaxRow parties) t.rows with
  | some pv, some winners =>
    some (p, (⟨pv.sum,
      (if total = 0 then 0 else pyRound2 ((pv.sum : ℚ) / (total : ℚ) * 100)),
      winners.countP (· == p)⟩ : PartySummaryEntry))
  | _, _ => none

/-- `get_state_party_summary`: party list from `get_parties` (columns minus
reserved), overall total from the `TOTAL_VOTES` column sum, one
`summaryEntry` per party. -/
def getStatePartySummary (D : Dataset) (year : String) : Option (Res StateSummary) :=
  match List.lookup year D with
  | none => some (.err ("Invalid year '" ++ year ++ "'"))
  | some t =>
    let parties := t.cols.filter (fun c => !(reservedKeys.contains c))
    match colInt t "TOTAL_VOTES" with
    | none => none
    | some totals =>
      match omap (summaryEntry t parties totals.sum) parties with
      | none => none
      | some entries => some (.ok ⟨year, totals.sum, t.rows.length, entries⟩)

def headMatch : List Char → List Char → Bool
  | _, [] => true
  | [], _ :: _ => false
  | c :: cs, p :: ps => c == p && headMatch cs ps

/-- Substring containment on character lists; an empty pattern matches
everything, as Python's `in` / pandas `str.contains` do. -/
def hasSub : List Char → List Char → Bool
  | _, [] => true
  | [], _ :: _ => false
  | c :: cs, p :: ps => headMatch (c :: cs) (p :: ps) || hasSub cs (p :: ps)

def strContains (s pat : String) : Bool := hasSub s.data pat.data

/-- `df["AC_NAME"].str.upper().str.contains(fragment, na=False)` on one row:
a non-string (or missing) name never matches. -/
def nameMatches (frag : String) (r : Row) : Bool :=
  match List.lookup "AC_NAME" r with
  | some (.str s) => strContains (pyUpper s) frag
  | _ => false

structure SearchHit where
  ac_no : Int
  ac_name : PyVal
  year : String
deriving DecidableEq, Repr

/-- The `seen`-set deduplication loop of `search_by_name`: keep the first hit
for each `ac_no`, preserving scan order. -/
def dedupHits (seen : List Int) : List SearchHit → List SearchHit
  | [] => []
  | h :: hs =>
    if seen.contains h.ac_no then dedupHits seen hs
    else h :: dedupHits (h.ac_no :: seen) hs

/-- `ElectionData.search_by_name`: scan years in insertion order, rows in
order, matching the stripped upper-cased fragment; then deduplicate by
`ac_no` keeping first occurrences. -/
def searchByName (D : Dataset) (frag0 : String) : Option (List SearchHit) :=
  let frag := pyUpper (pyStrip frag0)
  match omap (fun (yr : String × Row) =>
      match (List.lookup "AC_NO" yr.2).bind toIntOpt, List.lookup "AC_NAME" yr.2 with
      | some acV, some nm => some (⟨acV, nm, yr.1⟩ : SearchHit)
      | _, _ => none)
    ((D.map (fun yt => (yt.2.rows.filter (nameMatches frag)).map (fun r => (yt.1, r)))).flatten) with
  | none => none
  | some hits => some (dedupHits [] hits)

/-- `search_constituency_by_name` endpoint: an empty match list becomes the
"No constituency found" error. -/
def searchConstituencyByName (D : Dataset) (frag : String) :
    Option (Res (List SearchHit)) :=
  match searchByName D frag with
  | none => none
  | some res =>
    if res.isEmpty then
      some (.err ("No constituency found matching '" ++ frag ++ "'"))
    else some (.ok res)

inductive BatchEntry where
  | notFound
  | data : PyVal → PyVal → List (String × Option (PyVal × ℚ)) → BatchEntry
deriving DecidableEq, Repr

/-- One requested party inside `batch_query`: `{votes, share}` when the
(upper-cased) party key is in the row dict, else the "Not available" marker
(`none`). -/
def batchParty (total : PyVal) (row : Row) (party : String) :
    Option (String × Option (PyVal × ℚ)) :=
  let p := pyUpper party
  match List.lookup p row with
  | some v =>
    match shareIf v total with
    | some sh => some (p, some (v, sh))
    | none => none
  | none => some (p, none)

/-- One AC within one year of `batch_query`: the "Not found" marker when the
row is absent (which is also what an unknown year produces for every AC). -/
def batchOne (D : Dataset) (parties : List String) (y : String) (ac : Int) :
    Option (Int × BatchEntry) :=
  match findAc D y ac with
  | none => some (ac, .notFound)
  | some row =>
    match List.lookup "AC_NAME" row,
          omap (batchParty (pyGet0 row "TOTAL_VOTES") row) parties with
    | some nm, some ps => some (ac, .data nm (pyGet0 row "TOTAL_VOTES") ps)
    | _, _ => none

/-- `batch_query`: nested year → AC structure; no top-level error case. -/
def batchQuery (D : Dataset) (acs : List Int) (parties : List String)
    (years : List String) : Option (List (String × List (Int × BatchEntry))) :=
  omap (fun y =>
    match omap (batchOne D parties y) acs with
    | none => none
    | some entries => some (y, entries)) years

/-- Modelled from the spec: "deduplicated by `ac_no` (first occurrence wins)" —
the first-occurrence subsequence of a list of AC numbers, used to state what
the search result's key order must be. -/
def firstOccAux (seen : List Int) : List Int → List Int
  | [] => []
  | a :: as =>
    if seen.contains a then firstOccAux seen as
    else a :: firstOccAux (a :: seen) as

/-- Build a row dict in source column order. -/
def mkRow (ac : Int) (nm : String) (total : Int) (pvs : List (String × Int)) : Row :=
  ("AC_NO", PyVal.int ac) :: ("AC_NAME", PyVal.str nm) ::
    ("TOTAL_VOTES", PyVal.int total) :: pvs.map (fun pv => (pv.1, PyVal.int pv.2))

/-- The spec's concrete fixture: year 2014 row {TDP 600, YSRCP 400, total 1000},
year 2019 row {TDP 500, YSRCP 500, total 1000}. -/
def exTable2014 : Table :=
  ⟨["AC_NO", "AC_NAME", "TOTAL_VOTES", "TDP", "YSRCP"],
   [mkRow 1 "Alpha" 1000 [("TDP", 600), ("YSRCP", 400)]]⟩

def exTable2019 : Table :=
  ⟨["AC_NO", "AC_NAME", "TOTAL_VOTES", "TDP", "YSRCP"],
   [mkRow 1 "Alpha" 1000 [("TDP", 500), ("YSRCP", 500)]]⟩

def exD : Dataset := [("2014", exTable2014), ("2019", exTable2019)]

/-- An empty table for year 1999, used to show `batch_query` cannot tell an
unknown year from a loaded-but-empty one. -/
def exTable1999empty : Table :=
  ⟨["AC_NO", "AC_NAME", "TOTAL_VOTES", "TDP", "YSRCP"], []⟩

/-- A row whose vote share hits an exact `.xx5` tie: `1/32 * 100 = 3.125`,
float-exact, where half-even and half-up rounding disagree. -/
def roundTable : Table :=
  ⟨["AC_NO", "AC_NAME", "TOTAL_VOTES", "TDP"], [mkRow 1 "Beta" 32 [("TDP", 1)]]⟩

def roundD : Dataset := [("2014", roundTable)]

/-- A table whose single row's party votes exceed its stored `TOTAL_VOTES`
(the engine never validates this). -/
def cexTable : Table :=
  ⟨["AC_NO", "AC_NAME", "TOTAL_VOTES", "AAP"], [mkRow 1 "X" 5 [("AAP", 10)]]⟩

def cexD : Dataset := [("2014", cexTable)]

/-- Two rows with distinct shares, for exercising `head` with negative
`top_n` (sort order independent of tie policy). -/
def topTable : Table :=
  ⟨["AC_NO", "AC_NAME", "TOTAL_VOTES", "TDP", "YSRCP"],
   [mkRow 1 "Alpha" 1000 [("TDP", 600), ("YSRCP", 400)],
    mkRow 2 "Beta" 1000 [("TDP", 300), ("YSRCP", 700)]]⟩

def topD : Dataset := [("2014", topTable)]

theorem omap_map {α β : Type} (f : α → Option β) (g : α → β) :
    ∀ l : List α, (∀ a ∈ l, f a = some (g a)) → omap f l = some (l.map g)
  | [], _ => rfl
  | a :: as, h => by
    have ha := h a (List.mem_cons_self a as)
    have ih := omap_map f g as (fun x hx => h x (List.mem_cons_of_mem a hx))
    simp [omap, ha, ih]

theorem omap_length {α β : Type} (f : α → Option β) :
    ∀ (l : List α) (bs : List β), omap f l = some bs → bs.length = l.length
  | [], bs, h => by
    simp only [omap, Option.some.injEq] at h
    simp [← h]
  | a :: as, bs, h => by
    simp only [omap] at h
    cases hfa : f a with
    | none => rw [hfa] at h; exact absurd h (by simp)
    | some b =>
      cases hrest : omap f as with
      | none => rw [hfa, hrest] at h; exact absurd h (by simp)
      | some bs' =>
        rw [hfa, hrest] at h
        simp only [Option.some.injEq] at h
        subst h
        simp [omap_length f as bs' hrest]

theorem omap_idx {α β : Type} (f : α → Option β) :
    ∀ (l : List α) (bs : List β), omap f l = some bs →
      ∀ i : Nat, bs[i]? = (l[i]?).bind f
  | [], bs, h, i => by
    simp only [omap, Option.some.injEq] at h
    subst h
    simp
  | a :: as, bs, h, i => by
    simp only [omap] at h
    cases hfa : f a with
    | none => rw [hfa] at h; exact absurd h (by simp)
    | some b =>
      cases hrest : omap f as with
      | none => rw [hfa, hrest] at h; exact absurd h (by simp)
      | some bs' =>
        rw [hfa, hrest] at h
        simp only [Option.some.injEq] at h
        subst h
        cases i with
        | zero => simp [hfa]
        | succ n => simp [omap_idx f as bs' hrest n]

theorem omap_total {α β : Type} (f : α → Option β) :
    ∀ l : List α, (∀ a ∈ l, (f a).isSome) → ∃ bs, omap f l = some bs
  | [], _ => ⟨[], rfl⟩
  | a :: as, h => by
    rcases Option.isSome_iff_exists.mp (h a (List.mem_cons_self a as)) with ⟨b, hb⟩
    rcases omap_total f as (fun x hx => h x (List.mem_cons_of_mem a hx)) with ⟨bs, hbs⟩
    exact ⟨b :: bs, by simp [omap, hb, hbs]⟩

theorem pyGet0_of_lookup {r : Row} {k : String} {v : PyVal}
    (h : List.lookup k r = some v) : pyGet0 r k = v := by
  simp [pyGet0, h]

theorem shareIf_int (v t : Int) : shareIf (.int v) (.int t) = some (specShareEven v t) := by
  by_cases h : t = 0
  · subst h; simp [shareIf, pyTruthy, specShareEven]
  · simp [shareIf, pyTruthy, toIntOpt, specShareEven, h]

theorem step_ge (best q : String × Int) :
    best.2 ≤ (if best.2 < q.2 then q else best).2 ∧
      q.2 ≤ (if best.2 < q.2 then q else best).2 := by
  by_cases h : best.2 < q.2
  · rw [if_pos h]; exact ⟨le_of_lt h, le_refl _⟩
  · rw [if_neg h]; exact ⟨le_refl _, le_of_not_lt h⟩

theorem maxFirst_snd_ge :
    ∀ (qs : List (String × Int)) (best : String × Int),
      best.2 ≤ (maxFirst best qs).2 ∧ ∀ q ∈ qs, q.2 ≤ (maxFirst best qs).2
  | [], best => by simp [maxFirst]
  | q :: qs, best => by
    simp only [maxFirst]
    have ih := maxFirst_snd_ge qs (if best.2 < q.2 then q else best)
    refine ⟨le_trans (step_ge best q).1 ih.1, ?_⟩
    intro x hx
    rcases List.mem_cons.mp hx with rfl | hx
    · exact le_trans (step_ge best x).2 ih.1
    · exact ih.2 x hx

theorem maxFirst_mem : ∀ (qs : List (String × Int)) (best : String × Int),
    maxFirst best qs = best ∨ maxFirst best qs ∈ qs
  | [], _ => Or.inl rfl
  | q :: qs, best => by
    simp only [maxFirst]
    rcases maxFirst_mem qs (if best.2 < q.2 then q else best) with h | h
    · rw [h]
      by_cases hc : best.2 < q.2
      · right; rw [if_pos hc]; exact List.mem_cons_self q qs
      · left; rw [if_neg hc]
    · right; exact List.mem_cons_of_mem q h

theorem maxFirst_first :
    ∀ (qs : List (String × Int)) (best : String × Int),
      maxFirst best qs = best ∨
      ∃ i : Nat, qs[i]? = some (maxFirst best qs) ∧
        best.2 < (maxFirst best qs).2 ∧
        ∀ j : Nat, j < i → ∀ x, qs[j]? = some x → x.2 < (maxFirst best qs).2
  | [], _ => Or.inl rfl
  | q :: qs, best => by
    simp only [maxFirst]
    rcases maxFirst_first qs (if best.2 < q.2 then q else best) with h | ⟨i, hi, hlt, hfirst⟩
    · rw [h]
      by_cases hc : best.2 < q.2
      · right
        refine ⟨0, ?_, ?_, ?_⟩
        · rw [if_pos hc]; simp
        · rw [if_pos hc]; exact hc
        · intro j hj x hx; exact absurd hj (Nat.not_lt_zero j)
      · left; rw [if_neg hc]
    · right
      refine ⟨i + 1, by simpa using hi, lt_of_le_of_lt (step_ge best q).1 hlt, ?_⟩
      intro j hj x hx
      cases j with
      | zero =>
        simp only [List.getElem?_cons_zero, Option.some.injEq] at hx
        subst hx
        exact lt_of_le_of_lt (step_ge best q).2 hlt
      | succ n =>
        exact hfirst n (by omega) x (by simpa using hx)

theorem maxFirst_full (best : String × Int) (qs : List (String × Int)) :
    ∃ i : Nat, (best :: qs)[i]? = some (maxFirst best qs) ∧
      ∀ j : Nat, j < i → ∀ x, (best :: qs)[j]? = some x → x.2 < (maxFirst best qs).2 := by
  rcases maxFirst_first qs best with h | ⟨i, hi, hlt, hfirst⟩
  · exact ⟨0, by simp [h], fun j hj x hx => absurd hj (Nat.not_lt_zero j)⟩
  · refine ⟨i + 1, by simpa using hi, ?_⟩
    intro j hj x hx
    cases j with
    | zero =>
      simp only [List.getElem?_cons_zero, Option.some.injEq] at hx
      subst hx
      exact hlt
    | succ n =>
      exact hfirst n (by omega) x (by simpa using hx)

theorem maxFirst_fst_mem (g : String → Int) (q0 : String) (qs : List String) :
    (maxFirst (q0, g q0) (qs.map fun q => (q, g q))).1 ∈ q0 :: qs := by
  rcases maxFirst_mem (qs.map fun q => (q, g q)) (q0, g q0) with h | h
  · rw [h]; exact List.mem_cons_self _ _
  · rcases List.mem_map.mp h with ⟨q, hq, he⟩
    rw [← he]
    exact List.mem_cons_of_mem _ hq

theorem pyMaxBy_spec (r : Row) (p : String) (ps : List String) (vf : String → Int)
    (hv : ∀ q ∈ p :: ps, pyGet0 r q = .int (vf q)) :
    ∃ w, pyMaxBy r (p :: ps) = some (w, vf w) ∧ w ∈ p :: ps ∧
      (∀ q ∈ p :: ps, vf q ≤ vf w) ∧
      ∃ i : Nat, (p :: ps)[i]? = some w ∧
        ∀ j : Nat, j < i → ∀ x, (p :: ps)[j]? = some x → vf x < vf w := by
  have hp : toIntOpt (pyGet0 r p) = some (vf p) := by
    rw [hv p (List.mem_cons_self p ps)]; rfl
  have hrest : omap (fun q => (toIntOpt (pyGet0 r q)).map (fun w => (q, w))) ps =
      some (ps.map fun q => (q, vf q)) := by
    refine omap_map _ _ ps (fun q hq => ?_)
    rw [hv q (List.mem_cons_of_mem p hq)]; rfl
  have hrun : pyMaxBy r (p :: ps) = some (maxFirst (p, vf p) (ps.map fun q => (q, vf q))) := by
    simp [pyMaxBy, hp, hrest]
  set m := maxFirst (p, vf p) (ps.map fun q => (q, vf q)) with hm
  have hsnd : m.2 = vf m.1 := by
    rcases maxFirst_mem (ps.map fun q => (q, vf q)) (p, vf p) with h | h
    · rw [hm, h]
    · rcases List.mem_map.mp h with ⟨q, _, he⟩
      rw [hm, ← he]
  have hwmem : m.1 ∈ p :: ps := maxFirst_fst_mem vf p ps
  refine ⟨m.1, ?_, hwmem, ?_, ?_⟩
  · rw [hrun, ← hsnd]
  · intro q hq
    rcases List.mem_cons.mp hq with rfl | hq
    · have := (maxFirst_snd_ge (ps.map fun q' => (q', vf q')) (q, vf q)).1
      rw [← hm, hsnd] at this
      exact this
    · have := (maxFirst_snd_ge (ps.map fun q' => (q', vf q')) (p, vf p)).2
        (q, vf q) (List.mem_map.mpr ⟨q, hq, rfl⟩)
      rw [← hm, hsnd] at this
      exact this
  · rcases maxFirst_full (p, vf p) (ps.map fun q => (q, vf q)) with ⟨i, hi, hfirst⟩
    rw [← hm] at hi hfirst
    have hform : (p, vf p) :: ps.map (fun q => (q, vf q)) =
        (p :: ps).map (fun q => (q, vf q)) := by simp
    rw [hform] at hi hfirst
    refine ⟨i, ?_, ?_⟩
    · rw [List.getElem?_map] at hi
      cases hq : (p :: ps)[i]? with
      | none => rw [hq] at hi; exact absurd hi (by simp)
      | some q =>
        rw [hq] at hi
        simp only [Option.map_some', Option.some.injEq] at hi
        have : q = m.1 := congrArg Prod.fst hi
        rw [this]
    · intro j hj x hx
      have hx' : ((p :: ps).map (fun q => (q, vf q)))[j]? = some (x, vf x) := by
        rw [List.getElem?_map, hx]; rfl
      have := hfirst j hj (x, vf x) hx'
      rw [hsnd] at this
      exact this

theorem sum_map_zero {β M : Type} [AddCommMonoid M] (l : List β) :
    (l.map fun _ => (0 : M)).sum = 0 := by
  induction l with
  | nil => rfl
  | cons b bs ih => simp [ih]

theorem sum_map_add {α M : Type} [AddCommMonoid M] (l : List α) (f g : α → M) :
    (l.map (fun a => f a + g a)).sum = (l.map f).sum + (l.map g).sum := by
  induction l with
  | nil => simp
  | cons a as ih =>
    simp only [List.map_cons, List.sum_cons, ih]
    exact add_add_add_comm _ _ _ _

theorem sum_map_swap {α β M : Type} [AddCommMonoid M] (l₁ : List α) (l₂ : List β)
    (f : α → β → M) :
    (l₁.map fun a => (l₂.map (f a)).sum).sum =
      (l₂.map fun b => (l₁.map fun a => f a b).sum).sum := by
  induction l₁ with
  | nil => simp [sum_map_zero]
  | cons a as ih =>
    simp only [List.map_cons, List.sum_cons, ih]
    exact (sum_map_add l₂ (fun b => f a b) (fun b => (as.map fun a' => f a' b).sum)).symm

theorem sum_if_mem_zero {w : String} : ∀ l : List String, w ∉ l →
    (l.map fun p => if w == p then (1 : ℕ) else 0).sum = 0
  | [], _ => rfl
  | p :: ps, h => by
    have h1 : ¬ ((w == p) = true) := by
      simp only [beq_iff_eq]
      rintro rfl
      exact h (List.mem_cons_self w ps)
    have h2 : w ∉ ps := fun m => h (List.mem_cons_of_mem p m)
    have ih := sum_if_mem_zero ps h2
    simp only [List.map_cons, List.sum_cons, if_neg h1, ih]

theorem sum_if_mem_one {w : String} : ∀ l : List String, l.Nodup → w ∈ l →
    (l.map fun p => if w == p then (1 : ℕ) else 0).sum = 1
  | [], _, hw => absurd hw (List.not_mem_nil w)
  | p :: ps, hnd, hw => by
    rcases List.mem_cons.mp hw with rfl | hw'
    · have hnotin : w ∉ ps := (List.nodup_cons.mp hnd).1
      have hz := sum_if_mem_zero ps hnotin
      simp only [List.map_cons, List.sum_cons, if_pos (beq_self_eq_true w), hz]
    · have h1 : ¬ ((w == p) = true) := by
        simp only [beq_iff_eq]
        rintro rfl
        exact (List.nodup_cons.mp hnd).1 hw'
      have ih := sum_if_mem_one ps (List.nodup_cons.mp hnd).2 hw'
      simp only [List.map_cons, List.sum_cons, if_neg h1, ih]

theorem sum_countP_cons (parties : List String) (w : String) (ws : List String) :
    (parties.map fun p => (w :: ws).countP (fun x => x == p)).sum =
      (parties.map fun p => ws.countP (fun x => x == p)).sum +
      (parties.map fun p => if w == p then (1 : ℕ) else 0).sum := by
  induction parties with
  | nil => rfl
  | cons p ps ih =>
    simp only [List.map_cons, List.sum_cons]
    rw [ih, List.countP_cons]
    omega

theorem sum_countP_eq_length (parties : List String) :
    ∀ ws : List String, parties.Nodup → (∀ w ∈ ws, w ∈ parties) →
      (parties.map fun p => ws.countP (fun w => w == p)).sum = ws.length
  | [], _, _ => by
    simp [List.countP_nil, sum_map_zero]
  | w :: ws, hnd, hmem => by
    have ih := sum_countP_eq_length parties ws hnd
      (fun x hx => hmem x (List.mem_cons_of_mem w hx))
    rw [sum_countP_cons parties w ws, ih,
      sum_if_mem_one parties hnd (hmem w (List.mem_cons_self w ws))]
    simp

theorem length_insertAsc (x : Scored) :
    ∀ l : List Scored, (insertAsc x l).length = l.length + 1
  | [] => rfl
  | y :: ys => by
    simp only [insertAsc]
    by_cases h : x.share < y.share
    · rw [if_pos h]; rfl
    · rw [if_neg h]; simp [length_insertAsc x ys]

theorem length_sortAsc : ∀ l : List Scored, (sortAscShare l).length = l.length
  | [] => rfl
  | x :: xs => by simp [sortAscShare, length_insertAsc, length_sortAsc xs]

theorem length_insertDesc (x : Scored) :
    ∀ l : List Scored, (insertDesc x l).length = l.length + 1
  | [] => rfl
  | y :: ys => by
    simp only [insertDesc]
    by_cases h : y.share < x.share
    · rw [if_pos h]; rfl
    · rw [if_neg h]; simp [length_insertDesc x ys]

theorem length_sortDesc : ∀ l : List Scored, (sortDescShare l).length = l.length
  | [] => rfl
  | x :: xs => by simp [sortDescShare, length_insertDesc, length_sortDesc xs]

theorem mem_insertAsc (x : Scored) :
    ∀ (l : List Scored) (y : Scored), y ∈ insertAsc x l → y = x ∨ y ∈ l
  | [], y, h => by
    simp only [insertAsc] at h
    exact Or.inl (List.mem_singleton.mp h)
  | z :: zs, y, h => by
    simp only [insertAsc] at h
    by_cases hc : x.share < z.share
    · rw [if_pos hc] at h
      rcases List.mem_cons.mp h with rfl | h2
      · exact Or.inl rfl
      · exact Or.inr h2
    · rw [if_neg hc] at h
      rcases List.mem_cons.mp h with rfl | h2
      · exact Or.inr (List.mem_cons_self y zs)
      · rcases mem_insertAsc x zs y h2 with h3 | h3
        · exact Or.inl h3
        · exact Or.inr (List.mem_cons_of_mem z h3)

theorem mem_sortAsc : ∀ (l : List Scored) (y : Scored), y ∈ sortAscShare l → y ∈ l
  | [], y, h => absurd h (List.not_mem_nil y)
  | x :: xs, y, h => by
    rcases mem_insertAsc x (sortAscShare xs) y h with h2 | h2
    · exact h2 ▸ List.mem_cons_self x xs
    · exact List.mem_cons_of_mem x (mem_sortAsc xs y h2)

theorem mem_insertDesc (x : Scored) :
    ∀ (l : List Scored) (y : Scored), y ∈ insertDesc x l → y = x ∨ y ∈ l
  | [], y, h => by
    simp only [insertDesc] at h
    exact Or.inl (List.mem_singleton.mp h)
  | z :: zs, y, h => by
    simp only [insertDesc] at h
    by_cases hc : z.share < x.share
    · rw [if_pos hc] at h
      rcases List.mem_cons.mp h with rfl | h2
      · exact Or.inl rfl
      · exact Or.inr h2
    · rw [if_neg hc] at h
      rcases List.mem_cons.mp h with rfl | h2
      · exact Or.inr (List.mem_cons_self y zs)
      · rcases mem_insertDesc x zs y h2 with h3 | h3
        · exact Or.inl h3
        · exact Or.inr (List.mem_cons_of_mem z h3)

theorem mem_sortDesc : ∀ (l : List Scored) (y : Scored), y ∈ sortDescShare l → y ∈ l
  | [], y, h => absurd h (List.not_mem_nil y)
  | x :: xs, y, h => by
    rcases mem_insertDesc x (sortDescShare xs) y h with h2 | h2
    · exact h2 ▸ List.mem_cons_self x xs
    · exact List.mem_cons_of_mem x (mem_sortDesc xs y h2)

theorem pyHead_zero (l : List Scored) : pyHead 0 l = [] := by
  simp [pyHead]

theorem pyHead_length_neg {n : Int} (h : n < 0) (l : List Scored) :
    (pyHead n l).length = l.length - (-n).toNat := by
  have h0 : ¬ (0 ≤ n) := by omega
  rw [pyHead, if_neg h0, List.length_take]
  exact Nat.min_eq_left (Nat.sub_le _ _)

theorem pyHead_subset {n : Int} {l : List Scored} :
    ∀ x ∈ pyHead n l, x ∈ l := by
  intro x hx
  rw [pyHead] at hx
  by_cases h0 : 0 ≤ n
  · rw [if_pos h0] at hx; exact List.mem_of_mem_take hx
  · rw [if_neg h0] at hx; exact List.mem_of_mem_take hx

theorem contains_true {α : Type} [BEq α] [LawfulBEq α] {l : List α} {a : α} :
    l.contains a = true ↔ a ∈ l := List.elem_iff

theorem firstOccAux_mem : ∀ (l seen : List Int) (a : Int),
    a ∈ firstOccAux seen l ↔ (a ∈ l ∧ a ∉ seen)
  | [], seen, a => by simp [firstOccAux]
  | b :: bs, seen, a => by
    simp only [firstOccAux]
    by_cases hc : seen.contains b = true
    · have hb : b ∈ seen := contains_true.mp hc
      rw [if_pos hc, firstOccAux_mem bs seen a]
      constructor
      · rintro ⟨h1, h2⟩; exact ⟨List.mem_cons_of_mem b h1, h2⟩
      · rintro ⟨h1, h2⟩
        rcases List.mem_cons.mp h1 with rfl | h3
        · exact absurd hb h2
        · exact ⟨h3, h2⟩
    · have hb : b ∉ seen := fun hm => hc (contains_true.mpr hm)
      rw [if_neg hc]
      constructor
      · intro h
        rcases List.mem_cons.mp h with rfl | h2
        · exact ⟨List.mem_cons_self a bs, hb⟩
        · have h3 := (firstOccAux_mem bs (b :: seen) a).mp h2
          exact ⟨List.mem_cons_of_mem b h3.1, fun hs => h3.2 (List.mem_cons_of_mem b hs)⟩
      · rintro ⟨h1, h2⟩
        rcases List.mem_cons.mp h1 with rfl | h3
        · exact List.mem_cons_self a _
        · by_cases hab : a = b
          · subst hab; exact List.mem_cons_self a _
          · exact List.mem_cons_of_mem b ((firstOccAux_mem bs (b :: seen) a).mpr
              ⟨h3, fun hs => (List.mem_cons.mp hs).elim hab h2⟩)

theorem firstOccAux_nodup : ∀ (l seen : List Int), (firstOccAux seen l).Nodup
  | [], _ => List.nodup_nil
  | b :: bs, seen => by
    simp only [firstOccAux]
    by_cases hc : seen.contains b = true
    · rw [if_pos hc]; exact firstOccAux_nodup bs seen
    · rw [if_neg hc]
      refine List.nodup_cons.mpr ⟨?_, firstOccAux_nodup bs (b :: seen)⟩
      intro hmem
      exact ((firstOccAux_mem bs (b :: seen) b).mp hmem).2 (List.mem_cons_self b seen)

theorem dedupHits_map_ac : ∀ (hs : List SearchHit) (seen : List Int),
    (dedupHits seen hs).map (·.ac_no) = firstOccAux seen (hs.map (·.ac_no))
  | [], _ => rfl
  | h :: hs, seen => by
    simp only [dedupHits, List.map_cons, firstOccAux]
    by_cases hc : seen.contains h.ac_no = true
    · rw [if_pos hc, if_pos hc]; exact dedupHits_map_ac hs seen
    · rw [if_neg hc, if_neg hc]
      simp [dedupHits_map_ac hs (h.ac_no :: seen)]

theorem hasSub_nil : ∀ l : List Char, hasSub l [] = true
  | [] => rfl
  | _ :: _ => rfl

theorem scoreRow_row {p : String} {r : Row} {s : Scored}
    (h : scoreRow p r = some s) : s.row = r := by
  unfold scoreRow at h
  repeat' split at h
  all_goals try simp_all
  all_goals rw [← h]

theorem swingOne_acOf (D : Dataset) (yf yt p : String) (a : Int) :
    ∀ e, swingOne D yf yt p a = some e → e.acOf = a := by
  intro e h
  unfold swingOne at h
  repeat' split at h
  all_goals simp_all [SwingEntry.acOf]
  all_goals rw [← h]

theorem findAc_none_of_year {D : Dataset} {y : String} (hy : List.lookup y D = none)
    (ac : Int) : findAc D y ac = none := by
  simp [findAc, hy]

/-- Claim C1: for every loaded year and every row with at least one party
column (all of whose cells are integer vote counts), `get_winner` returns the
party that is first in the row's column order among those achieving the
maximum vote count — Python's `max` keeps the first-seen maximum — and the
returned votes equal that maximum.  The conjuncts state: the winner is a
party of the row, its vote count bounds every party's count, and every party
strictly before it in column order has a strictly smaller count. -/
theorem claim_C1_winner_stable_max (D : Dataset) (year : String) (ac : Int)
    (row : Row) (p : String) (ps : List String) (vf : String → Int) (tv : Int) (nm : PyVal)
    (hrow : findAc D year ac = some row)
    (hp : getPartiesRow row = p :: ps)
    (hv : ∀ q ∈ p :: ps, List.lookup q row = some (.int (vf q)))
    (htv : pyGet0 row "TOTAL_VOTES" = .int tv)
    (hnm : List.lookup "AC_NAME" row = some nm) :
    ∃ w, getWinner D year ac =
        some (.ok ⟨ac, nm, year, w, .int (vf w), specShareEven (vf w) tv, .int tv⟩) ∧
      w ∈ p :: ps ∧ (∀ q ∈ p :: ps, vf q ≤ vf w) ∧
      ∃ i : Nat, (p :: ps)[i]? = some w ∧
        ∀ j : Nat, j < i → ∀ x, (p :: ps)[j]? = some x → vf x < vf w := by
  have hv' : ∀ q ∈ p :: ps, pyGet0 row q = .int (vf q) :=
    fun q hq => pyGet0_of_lookup (hv q hq)
  rcases pyMaxBy_spec row p ps vf hv' with ⟨w, hmax, hwmem, hle, hidx⟩
  have hlook : List.lookup w row = some (.int (vf w)) := hv w hwmem
  refine ⟨w, ?_, hwmem, hle, hidx⟩
  simp only [getWinner, hrow, hp, List.isEmpty_cons, hmax, hlook, htv, shareIf_int, hnm]
  simp

/-- Witness for C1 at the 2019 fixture row, an exact tie TDP 500 / YSRCP 500:
the winner is TDP, the first party in column order. -/
theorem claim_C1_witness :
    ∃ w, getWinner exD "2019" 1 = some (.ok ⟨1, .str "Alpha", "2019", w,
        .int 500, specShareEven 500 1000, .int 1000⟩) ∧
      w ∈ "TDP" :: ["YSRCP"] ∧ (∀ q ∈ "TDP" :: ["YSRCP"], (500 : Int) ≤ 500) ∧
      ∃ i : Nat, ("TDP" :: ["YSRCP"])[i]? = some w ∧
        ∀ j : Nat, j < i → ∀ x, ("TDP" :: ["YSRCP"])[j]? = some x → (500 : Int) < 500 :=
  claim_C1_winner_stable_max exD "2019" 1
    (mkRow 1 "Alpha" 1000 [("TDP", 500), ("YSRCP", 500)]) "TDP" ["YSRCP"]
    (fun _ => 500) 1000 (.str "Alpha")
    (by decide) (by decide) (by decide) (by decide) (by decide)

/-- Claim C2, counterexample: the claim asserts half-up rounding, but
`get_party_vote_share` computes `round(votes / total * 100, 2)`, which rounds
ties to even.  At votes 1, total 32 the share is exactly 3.125 (float-exact:
`1/32 = 0.03125` and `0.03125 * 100 = 3.125` are representable), Python
returns 3.12 = 78/25, while half-up rounding gives 3.13 = 313/100. -/
theorem claim_C2_counterexample :
    getPartyVoteShare roundD "2014" 1 "TDP" =
      some (.ok ⟨1, .str "Beta", "2014", "TDP", .int 1, .int 32, 78/25⟩) ∧
    specShareHalfUp 1 32 = 313/100 ∧
    ¬ ((78 : ℚ)/25 = 313/100) := by
  refine ⟨by with_unfolding_all decide, by with_unfolding_all decide,
    by with_unfolding_all decide⟩

/-- Claim C2 as amended: for every valid (year, ac, party) with the party key
present in the row and integer cells, the returned share equals
`votes / total * 100` rounded to 2 decimal places with ties rounded to even
(Python's `round`), and equals 0 whenever total is 0 — for every votes value —
and the call returns a payload, never an unhandled division fault. -/
theorem claim_C2_amended (D : Dataset) (year : String) (ac : Int) (party0 : String)
    (row : Row) (v t : Int) (nm : PyVal)
    (hrow : findAc D year ac = some row)
    (hv : List.lookup (pyUpper party0) row = some (.int v))
    (ht : pyGet0 row "TOTAL_VOTES" = .int t)
    (hnm : List.lookup "AC_NAME" row = some nm) :
    getPartyVoteShare D year ac party0 =
      some (.ok ⟨ac, nm, year, pyUpper party0, .int v, .int t, specShareEven v t⟩) ∧
    (t = 0 → specShareEven v t = 0) := by
  constructor
  · simp only [getPartyVoteShare, hrow, hv, ht, shareIf_int, hnm]
  · intro h0
    simp [specShareEven, h0]

/-- Witness for the amended C2 at the spec fixture: YSRCP in 2014 has share
`round(400/1000*100, 2) = 40`, with the lower-case party name upper-cased. -/
theorem claim_C2_witness :
    (getPartyVoteShare exD "2014" 1 "ysrcp" =
      some (.ok ⟨1, .str "Alpha", "2014", pyUpper "ysrcp", .int 400, .int 1000,
        specShareEven 400 1000⟩) ∧
    ((1000 : Int) = 0 → specShareEven 400 1000 = 0)) ∧
    specShareEven 400 1000 = 40 :=
  ⟨claim_C2_amended exD "2014" 1 "ysrcp"
      (mkRow 1 "Alpha" 1000 [("TDP", 600), ("YSRCP", 400)]) 400 1000 (.str "Alpha")
      (by decide) (by decide) (by decide) (by decide),
   by with_unfolding_all decide⟩

/-- Claim C3: `compute_vote_swing` produces one entry per requested AC, in
input order (the entry list maps back to the input AC list), and for an AC
whose rows and party are present in both years with integer cells the entry's
`swing_pct` equals the year_to share minus the year_from share, rounded to 2
decimals, each share computed independently by the standard share formula. -/
theorem claim_C3_swing_identity (D : Dataset) (acs : List Int) (party0 yf yt : String)
    (hwf : ∀ a ∈ acs, (swingOne D yf yt (pyUpper party0) a).isSome)
    (i : Nat) (a : Int) (rf rt : Row) (vf vt tf tt : Int) (nm : PyVal)
    (hi : acs[i]? = some a)
    (hrf : findAc D yf a = some rf) (hrt : findAc D yt a = some rt)
    (hvf : List.lookup (pyUpper party0) rf = some (.int vf))
    (hvt : List.lookup (pyUpper party0) rt = some (.int vt))
    (htf : pyGet0 rf "TOTAL_VOTES" = .int tf) (htt : pyGet0 rt "TOTAL_VOTES" = .int tt)
    (hnm : List.lookup "AC_NAME" rf = some nm) :
    ∃ res, computeVoteSwing D acs party0 yf yt = some res ∧
      res.swing_results.map SwingEntry.acOf = acs ∧
      res.swing_results[i]? = some (.ok a nm (pyUpper party0)
        (specShareEven vf tf) (specShareEven vt tt)
        (pyRound2 (specShareEven vt tt - specShareEven vf tf))) := by
  rcases omap_total (swingOne D yf yt (pyUpper party0)) acs hwf with ⟨es, hes⟩
  refine ⟨⟨es, yf, yt⟩, by simp [computeVoteSwing, hes], ?_, ?_⟩
  · refine List.ext_getElem? (fun j => ?_)
    rw [List.getElem?_map, omap_idx _ acs es hes j]
    cases hj : acs[j]? with
    | none => rfl
    | some b =>
      simp only [Option.some_bind]
      have hb : b ∈ acs := by
        rcases List.getElem?_eq_some.mp hj with ⟨hlt, heq⟩
        exact heq ▸ List.getElem_mem hlt
      rcases Option.isSome_iff_exists.mp (hwf b hb) with ⟨e, he⟩
      rw [he]
      simp [swingOne_acOf D yf yt (pyUpper party0) b e he]
  · rw [omap_idx _ acs es hes i, hi]
    simp only [Option.some_bind]
    simp only [swingOne, hrf, hrt, hvf, hvt, htf, htt, shareIf_int, hnm]

/-- Witness for C3 at the spec fixture: TDP swings from 60 in 2014 to 50 in
2019, giving −10.0. -/
theorem claim_C3_witness :
    (∃ res, computeVoteSwing exD [1] "TDP" "2014" "2019" = some res ∧
      res.swing_results.map SwingEntry.acOf = [1] ∧
      res.swing_results[0]? = some (.ok 1 (.str "Alpha") (pyUpper "TDP")
        (specShareEven 600 1000) (specShareEven 500 1000)
        (pyRound2 (specShareEven 500 1000 - specShareEven 600 1000)))) ∧
    pyRound2 (specShareEven 500 1000 - specShareEven 600 1000) = -10 :=
  ⟨claim_C3_swing_identity exD [1] "TDP" "2014" "2019"
      (by with_unfolding_all decide) 0 1
      (mkRow 1 "Alpha" 1000 [("TDP", 600), ("YSRCP", 400)])
      (mkRow 1 "Alpha" 1000 [("TDP", 500), ("YSRCP", 500)])
      600 500 1000 1000 (.str "Alpha")
      (by decide) (by decide) (by decide) (by decide) (by decide)
      (by decide) (by decide) (by decide),
   by with_unfolding_all decide⟩

/-- Claim C5: in `compute_vote_swing` a missing AC (in either year) or a
missing party yields a per-AC error entry at that AC's position, each entry
depends only on its own AC (processing continues for the rest), and the call
returns the batch payload — whose type has no top-level error case — rather
than failing as a whole. -/
theorem claim_C5_swing_containment (D : Dataset) (acs : List Int) (party0 yf yt : String)
    (hwf : ∀ a ∈ acs, (swingOne D yf yt (pyUpper party0) a).isSome) :
    ∃ res, computeVoteSwing D acs party0 yf yt = some res ∧
      res.swing_results.length = acs.length ∧
      (∀ i : Nat, res.swing_results[i]? = (acs[i]?).bind (swingOne D yf yt (pyUpper party0))) ∧
      (∀ (i : Nat) (a : Int), acs[i]? = some a →
        (findAc D yf a = none →
          res.swing_results[i]? = some (SwingEntry.err a ("Not found in " ++ yf))) ∧
        (∀ rf, findAc D yf a = some rf → findAc D yt a = none →
          res.swing_results[i]? = some (SwingEntry.err a ("Not found in " ++ yt))) ∧
        (∀ rf rt, findAc D yf a = some rf → findAc D yt a = some rt →
          (List.lookup (pyUpper party0) rf = none ∨ List.lookup (pyUpper party0) rt = none) →
          res.swing_results[i]? =
            some (SwingEntry.err a ("Party '" ++ pyUpper party0 ++ "' not in dataset")))) := by
  rcases omap_total (swingOne D yf yt (pyUpper party0)) acs hwf with ⟨es, hes⟩
  refine ⟨⟨es, yf, yt⟩, by simp [computeVoteSwing, hes], omap_length _ acs es hes,
    fun i => omap_idx _ acs es hes i, ?_⟩
  intro i a ha
  have hidx : es[i]? = (acs[i]?).bind (swingOne D yf yt (pyUpper party0)) :=
    omap_idx _ acs es hes i
  rw [ha] at hidx
  simp only [Option.some_bind] at hidx
  refine ⟨?_, ?_, ?_⟩
  · intro h1
    rw [hidx]
    simp [swingOne, h1]
  · intro rf h1 h2
    rw [hidx]
    simp [swingOne, h1, h2]
  · intro rf rt h1 h2 h3
    rw [hidx]
    rcases h3 with h3 | h3
    · simp [swingOne, h1, h2, h3]
    · cases hlf : List.lookup (pyUpper party0) rf <;>
        simp [swingOne, h1, h2, h3, hlf]

/-- Witness for C5: AC 1 is present in both years while AC 2 is absent from
year_to 2019 is impossible in the fixture, so we use a batch mixing AC 1
(fully populated) and AC 7 (absent from both years, reported as a per-AC
"Not found in 2014" error); the batch still returns both entries. -/
theorem claim_C5_witness :
    ∃ res, computeVoteSwing exD [1, 7] "tdp" "2014" "2019" = some res ∧
      res.swing_results.length = [1, 7].length ∧
      (∀ i : Nat, res.swing_results[i]? =
        ([1, 7][i]? : Option Int).bind (swingOne exD "2014" "2019" (pyUpper "tdp"))) ∧
      (∀ (i : Nat) (a : Int), ([1, 7][i]? : Option Int) = some a →
        (findAc exD "2014" a = none →
          res.swing_results[i]? = some (SwingEntry.err a ("Not found in " ++ "2014"))) ∧
        (∀ rf, findAc exD "2014" a = some rf → findAc exD "2019" a = none →
          res.swing_results[i]? = some (SwingEntry.err a ("Not found in " ++ "2019"))) ∧
        (∀ rf rt, findAc exD "2014" a = some rf → findAc exD "2019" a = some rt →
          (List.lookup (pyUpper "tdp") rf = none ∨ List.lookup (pyUpper "tdp") rt = none) →
          res.swing_results[i]? =
            some (SwingEntry.err a ("Party '" ++ pyUpper "tdp" ++ "' not in dataset")))) :=
  claim_C5_swing_containment exD [1, 7] "tdp" "2014" "2019"
    (by with_unfolding_all decide)

/-- Claim C6, counterexample: the conservation inequality fails on a dataset
whose single row records party votes (10) exceeding its stored `TOTAL_VOTES`
(5) — the engine never validates this, so the party total sum (10) exceeds
the row total sum (5), and the claim's hypotheses (non-negative counts, one
party column) are all met. -/
theorem claim_C6_counterexample :
    getStatePartySummary cexD "2014" =
      some (.ok ⟨"2014", 5, 1, [("AAP", ⟨10, 200, 1⟩)]⟩) ∧
    ¬ (([("AAP", (⟨10, 200, 1⟩ : PartySummaryEntry))].map
        (fun pe => pe.2.total_votes)).sum ≤
      (cexTable.rows.map
        (fun r => ((List.lookup "TOTAL_VOTES" r).bind toIntOpt).getD 0)).sum) := by
  refine ⟨by with_unfolding_all decide, by with_unfolding_all decide⟩

/-- Claim C6 as amended: with the additional hypothesis that in every row the
party votes sum to at most the stored row total (the spec's stated semantic
expectation on the data), `get_state_party_summary` satisfies both
conservation laws: the sum of per-party vote totals is at most the sum of row
totals, and seats_won sums to the number of rows — every row having exactly
one winner, determined by first-in-column-order `idxmax`, which agrees with
`get_winner`'s `max` tie-break on that row. -/
theorem map_pair_total (l : List String) (g : String → PartySummaryEntry) :
    ((l.map (fun p => (p, g p))).map (fun pe => pe.2.total_votes)) =
      l.map (fun p => (g p).total_votes) := by
  induction l with
  | nil => rfl
  | cons a as ih => simp only [List.map_cons, ih]

theorem map_pair_seats (l : List String) (g : String → PartySummaryEntry) :
    ((l.map (fun p => (p, g p))).map (fun pe => pe.2.seats_won)) =
      l.map (fun p => (g p).seats_won) := by
  induction l with
  | nil => rfl
  | cons a as ih => simp only [List.map_cons, ih]

theorem claim_C6_amended (D : Dataset) (year : String) (t : Table)
    (q0 : String) (qs : List String) (vf : Row → String → Int) (tf : Row → Int)
    (ht : List.lookup year D = some t)
    (hp : t.cols.filter (fun c => !(reservedKeys.contains c)) = q0 :: qs)
    (hnd : (q0 :: qs).Nodup)
    (hv : ∀ r ∈ t.rows, ∀ p ∈ q0 :: qs, List.lookup p r = some (.int (vf r p)))
    (htv : ∀ r ∈ t.rows, List.lookup "TOTAL_VOTES" r = some (.int (tf r)))
    (hkeys : ∀ r ∈ t.rows, getPartiesRow r = q0 :: qs)
    (hbound : ∀ r ∈ t.rows, ((q0 :: qs).map (vf r)).sum ≤ tf r) :
    ∃ s, getStatePartySummary D year = some (.ok s) ∧
      (s.party_summary.map (fun pe => pe.2.total_votes)).sum ≤ (t.rows.map tf).sum ∧
      s.total_votes_polled = (t.rows.map tf).sum ∧
      (s.party_summary.map (fun pe => pe.2.seats_won)).sum = t.rows.length ∧
      s.total_constituencies = t.rows.length ∧
      (∀ r ∈ t.rows, ∃ w, idxmaxRow (q0 :: qs) r = some w ∧ w ∈ q0 :: qs ∧
        (pyMaxBy r (getPartiesRow r)).map Prod.fst = some w) := by
  have hidx : ∀ r ∈ t.rows, idxmaxRow (q0 :: qs) r =
      some (maxFirst (q0, vf r q0) (qs.map fun q => (q, vf r q))).1 := by
    intro r hr
    have hpairs : omap (fun p => ((List.lookup p r).bind toIntOpt).map (fun v => (p, v)))
        (q0 :: qs) = some ((q0 :: qs).map fun p => (p, vf r p)) := by
      refine omap_map _ _ _ (fun p hp' => ?_)
      rw [hv r hr p hp']
      rfl
    simp only [idxmaxRow, hpairs, List.map_cons]
  have hcol : colInt t "TOTAL_VOTES" = some (t.rows.map (fun r => tf r)) := by
    unfold colInt
    exact omap_map _ _ t.rows (fun r hr => by rw [htv r hr]; rfl)
  have hcolp : ∀ p ∈ q0 :: qs, colInt t p = some (t.rows.map (fun r => vf r p)) := by
    intro p hp'
    unfold colInt
    exact omap_map _ _ t.rows (fun r hr => by rw [hv r hr p hp']; rfl)
  have hwin : omap (idxmaxRow (q0 :: qs)) t.rows =
      some (t.rows.map (fun r =>
        (maxFirst (q0, vf r q0) (qs.map fun q => (q, vf r q))).1)) :=
    omap_map _ _ t.rows (fun r hr => hidx r hr)
  have hentry : ∀ p ∈ q0 :: qs, summaryEntry t (q0 :: qs) (t.rows.map (fun r => tf r)).sum p =
      some (p, (⟨(t.rows.map (fun r => vf r p)).sum,
        (if (t.rows.map (fun r => tf r)).sum = 0 then 0
         else pyRound2 ((((t.rows.map (fun r => vf r p)).sum : ℤ) : ℚ) /
           (((t.rows.map (fun r => tf r)).sum : ℤ) : ℚ) * 100)),
        ((t.rows.map (fun r =>
          (maxFirst (q0, vf r q0) (qs.map fun q => (q, vf r q))).1)).countP
            (· == p))⟩ : PartySummaryEntry)) := by
    intro p hp'
    simp only [summaryEntry]
    rw [hcolp p hp', hwin]
  have hentries : omap (summaryEntry t (q0 :: qs) (t.rows.map (fun r => tf r)).sum) (q0 :: qs) =
      some ((q0 :: qs).map (fun p => (p, (⟨(t.rows.map (fun r => vf r p)).sum,
        (if (t.rows.map (fun r => tf r)).sum = 0 then 0
         else pyRound2 ((((t.rows.map (fun r => vf r p)).sum : ℤ) : ℚ) /
           (((t.rows.map (fun r => tf r)).sum : ℤ) : ℚ) * 100)),
        ((t.rows.map (fun r =>
          (maxFirst (q0, vf r q0) (qs.map fun q => (q, vf r q))).1)).countP
            (· == p))⟩ : PartySummaryEntry)))) :=
    omap_map _ _ _ hentry
  have hrun : getStatePartySummary D year =
      some (.ok ⟨year, (t.rows.map (fun r => tf r)).sum, t.rows.length,
        (q0 :: qs).map (fun p => (p, (⟨(t.rows.map (fun r => vf r p)).sum,
          (if (t.rows.map (fun r => tf r)).sum = 0 then 0
           else pyRound2 ((((t.rows.map (fun r => vf r p)).sum : ℤ) : ℚ) /
             (((t.rows.map (fun r => tf r)).sum : ℤ) : ℚ) * 100)),
          ((t.rows.map (fun r =>
            (maxFirst (q0, vf r q0) (qs.map fun q => (q, vf r q))).1)).countP
              (· == p))⟩ : PartySummaryEntry)))⟩) := by
    simp only [getStatePartySummary, ht, hp, hcol, hentries]
  refine ⟨_, hrun, ?_, rfl, ?_, rfl, ?_⟩
  · dsimp only
    rw [map_pair_total]
    show ((q0 :: qs).map (fun p => (t.rows.map (fun r => vf r p)).sum)).sum ≤
      (t.rows.map tf).sum
    rw [sum_map_swap (q0 :: qs) t.rows (fun p r => vf r p)]
    exact List.sum_le_sum (fun r hr => hbound r hr)
  · dsimp only
    rw [map_pair_seats]
    show ((q0 :: qs).map (fun p =>
      ((t.rows.map (fun r =>
        (maxFirst (q0, vf r q0) (qs.map fun q => (q, vf r q))).1)).countP
          (fun w => w == p)))).sum = t.rows.length
    have hlen := sum_countP_eq_length (q0 :: qs)
      (t.rows.map (fun r => (maxFirst (q0, vf r q0) (qs.map fun q => (q, vf r q))).1))
      hnd ?hmem
    case hmem =>
      intro w hw
      rcases List.mem_map.mp hw with ⟨r, _, he⟩
      exact he ▸ maxFirst_fst_mem (vf r) q0 qs
    rw [hlen, List.length_map]
  · intro r hr
    refine ⟨(maxFirst (q0, vf r q0) (qs.map fun q => (q, vf r q))).1, hidx r hr,
      maxFirst_fst_mem (vf r) q0 qs, ?_⟩
    rw [hkeys r hr]
    have hq0 : toIntOpt (pyGet0 r q0) = some (vf r q0) := by
      rw [pyGet0_of_lookup (hv r hr q0 (List.mem_cons_self q0 qs))]
      rfl
    have hrest : omap (fun q => (toIntOpt (pyGet0 r q)).map (fun w => (q, w))) qs =
        some (qs.map fun q => (q, vf r q)) := by
      refine omap_map _ _ qs (fun q hq => ?_)
      rw [pyGet0_of_lookup (hv r hr q (List.mem_cons_of_mem q0 hq))]
      rfl
    simp only [pyMaxBy, hq0, hrest]
    rfl

/-- Witness for the amended C6 at the 2014 fixture (600 + 400 ≤ 1000, one
row, TDP wins the single seat). -/
theorem claim_C6_witness :
    ∃ s, getStatePartySummary exD "2014" = some (.ok s) ∧
      (s.party_summary.map (fun pe => pe.2.total_votes)).sum ≤
        (exTable2014.rows.map (fun r =>
          ((List.lookup "TOTAL_VOTES" r).bind toIntOpt).getD 0)).sum ∧
      s.total_votes_polled = (exTable2014.rows.map (fun r =>
          ((List.lookup "TOTAL_VOTES" r).bind toIntOpt).getD 0)).sum ∧
      (s.party_summary.map (fun pe => pe.2.seats_won)).sum = exTable2014.rows.length ∧
      s.total_constituencies = exTable2014.rows.length ∧
      (∀ r ∈ exTable2014.rows, ∃ w, idxmaxRow ("TDP" :: ["YSRCP"]) r = some w ∧
        w ∈ "TDP" :: ["YSRCP"] ∧ (pyMaxBy r (getPartiesRow r)).map Prod.fst = some w) :=
  claim_C6_amended exD "2014" exTable2014 "TDP" ["YSRCP"]
    (fun r p => ((List.lookup p r).bind toIntOpt).getD 0)
    (fun r => ((List.lookup "TOTAL_VOTES" r).bind toIntOpt).getD 0)
    (by decide) (by decide) (by decide) (by decide) (by decide) (by decide) (by decide)

/-- Claim C7, counterexample: `batch_query` called with a year that is not in
the dataset does not return a typed error: it maps every requested AC to the
plain "Not found" marker, which is exactly the output produced when that year
is loaded as an empty table — the two calls are indistinguishable. -/
theorem claim_C7_counterexample :
    batchQuery exD [1] ["TDP"] ["1999"] = some [("1999", [(1, .notFound)])] ∧
    batchQuery exD [1] ["TDP"] ["1999"] =
      batchQuery (exD ++ [("1999", exTable1999empty)]) [1] ["TDP"] ["1999"] := by
  refine ⟨by with_unfolding_all decide, by with_unfolding_all decide⟩

/-- Claim C7 as amended: on a year absent from the dataset, `get_ac_results`
returns a single top-level error (as the claim's second half states), and so
do `get_winner`, `get_party_vote_share`, `get_top_constituencies` and
`get_state_party_summary`; `compute_vote_swing` returns a per-AC error entry
for every requested AC; but `batch_query` returns no error at all — every AC
maps to the same "Not found" marker an empty table would produce. -/
theorem claim_C7_amended (D : Dataset) (y : String) (hy : List.lookup y D = none)
    (acs : List Int) (ac : Int) (party : String) (ps : List String) (n : Int)
    (b : Bool) (yt : String) :
    getAcResults D y acs = .err ("Invalid year '" ++ y ++ "'") ∧
    getWinner D y ac = some (.err ("AC " ++ toString ac ++ " not found in year " ++ y)) ∧
    getPartyVoteShare D y ac party =
      some (.err ("AC " ++ toString ac ++ " not found in year " ++ y)) ∧
    getTopConstituencies D party y n b = some (.err ("Invalid year '" ++ y ++ "'")) ∧
    getStatePartySummary D y = some (.err ("Invalid year '" ++ y ++ "'")) ∧
    computeVoteSwing D acs party y yt =
      some ⟨acs.map (fun a => .err a ("Not found in " ++ y)), y, yt⟩ ∧
    batchQuery D acs ps [y] = some [(y, acs.map (fun a => (a, .notFound)))] := by
  have hfa : ∀ a : Int, findAc D y a = none := findAc_none_of_year hy
  refine ⟨?_, ?_, ?_, ?_, ?_, ?_, ?_⟩
  · simp only [getAcResults, hy]
  · simp only [getWinner, hfa ac]
  · simp only [getPartyVoteShare, hfa ac]
  · simp only [getTopConstituencies, hy]
  · simp only [getStatePartySummary, hy]
  · have hone : omap (swingOne D y yt (pyUpper party)) acs =
        some (acs.map (fun a => .err a ("Not found in " ++ y))) :=
      omap_map _ _ acs (fun a _ => by simp only [swingOne, hfa a])
    simp only [computeVoteSwing, hone]
  · have hone : omap (batchOne D ps y) acs =
        some (acs.map (fun a => (a, BatchEntry.notFound))) :=
      omap_map _ _ acs (fun a _ => by simp only [batchOne, hfa a])
    simp only [batchQuery, omap, hone]

/-- Witness for the amended C7 on the fixture dataset with unknown year 1999. -/
theorem claim_C7_witness :
    getAcResults exD "1999" [1] = .err ("Invalid year '" ++ "1999" ++ "'") ∧
    getWinner exD "1999" 1 =
      some (.err ("AC " ++ toString (1 : Int) ++ " not found in year " ++ "1999")) ∧
    getPartyVoteShare exD "1999" 1 "TDP" =
      some (.err ("AC " ++ toString (1 : Int) ++ " not found in year " ++ "1999")) ∧
    getTopConstituencies exD "TDP" "1999" 10 false =
      some (.err ("Invalid year '" ++ "1999" ++ "'")) ∧
    getStatePartySummary exD "1999" = some (.err ("Invalid year '" ++ "1999" ++ "'")) ∧
    computeVoteSwing exD [1] "TDP" "1999" "2019" =
      some ⟨[1].map (fun a => .err a ("Not found in " ++ "1999")), "1999", "2019"⟩ ∧
    batchQuery exD [1] ["TDP"] ["1999"] =
      some [("1999", [1].map (fun a => (a, .notFound)))] :=
  claim_C7_amended exD "1999" (by decide) [1] 1 "TDP" ["TDP"] 10 false "2019"

set_option maxRecDepth 10000 in
/-- Claim C8 is the intended behaviour (the source's own `PARTIES_KEY` set
exists exactly to exclude the reserved columns), but the party-argument
checks use raw row/column membership (`party not in row`,
`party not in df.columns`), so the reserved column `TOTAL_VOTES` passed as a
party is accepted by all four operations and reported as a party with a 100%
vote share instead of a party-not-found outcome.  This theorem evaluates the
code at the failing input. -/
theorem claim_C8_reserved_accepted_as_party :
    getPartyVoteShare exD "2014" 1 "TOTAL_VOTES" =
      some (.ok ⟨1, .str "Alpha", "2014", "TOTAL_VOTES", .int 1000, .int 1000, 100⟩) ∧
    computeVoteSwing exD [1] "TOTAL_VOTES" "2014" "2019" =
      some ⟨[.ok 1 (.str "Alpha") "TOTAL_VOTES" 100 100 0], "2014", "2019"⟩ ∧
    getTopConstituencies exD "TOTAL_VOTES" "2014" 10 false =
      some (.ok ⟨"TOTAL_VOTES", "2014", "top",
        [⟨1, .str "Alpha", 1000, 1000, 100⟩]⟩) ∧
    batchQuery exD [1] ["TOTAL_VOTES"] ["2014"] =
      some [("2014", [(1, .data (.str "Alpha") (.int 1000)
        [("TOTAL_VOTES", some (.int 1000, 100))])])] := by
  refine ⟨by with_unfolding_all decide, by with_unfolding_all decide,
    by with_unfolding_all decide, by with_unfolding_all decide⟩

set_option maxRecDepth 10000 in
/-- Claim C9, counterexample: `get_top_constituencies` with `top_n = -1` on a
two-row table does not return an empty list — pandas `head(-1)` returns all
rows but the last, so one row comes back. -/
theorem claim_C9_counterexample :
    getTopConstituencies topD "TDP" "2014" (-1) false =
      some (.ok ⟨"TDP", "2014", "top", [⟨1, .str "Alpha", 600, 1000, 60⟩]⟩) ∧
    ([(⟨1, .str "Alpha", 600, 1000, 60⟩ : TopEntry)] : List TopEntry) ≠ [] := by
  refine ⟨by with_unfolding_all decide, by decide⟩

/-- Claim C9 as amended: for a loaded year whose table has the requested
party as a column (nonzero integer totals, integer cells), `top_n = 0`
returns an empty result list and no error, while a negative `top_n` returns
all but the last `|top_n|` sorted rows — `df.head` semantics — again without
an error. -/
theorem claim_C9_amended (D : Dataset) (party0 year : String) (t : Table)
    (top_n : Int) (bottom : Bool) (g : Row → Scored)
    (ht : List.lookup year D = some t)
    (hpc : t.cols.contains (pyUpper party0) = true)
    (hs : ∀ r ∈ t.rows, scoreRow (pyUpper party0) r = some (g r))
    (hrow : ∀ r ∈ t.rows, ((List.lookup "AC_NO" r).bind toIntOpt).isSome ∧
      (List.lookup "AC_NAME" r).isSome)
    (hn : top_n ≤ 0) :
    ∃ pl, getTopConstituencies D party0 year top_n bottom = some (.ok pl) ∧
      pl.results.length =
        (if top_n = 0 then 0 else t.rows.length - (-top_n).toNat) := by
  have hscored : omap (scoreRow (pyUpper party0)) t.rows = some (t.rows.map g) :=
    omap_map _ _ t.rows hs
  have hsortlen : ∀ b : Bool,
      (if b then sortAscShare (t.rows.map g) else sortDescShare (t.rows.map g)).length =
        t.rows.length := by
    intro b
    cases b
    · simp [length_sortDesc]
    · simp [length_sortAsc]
  have hsortmem : ∀ (b : Bool) s,
      s ∈ (if b then sortAscShare (t.rows.map g) else sortDescShare (t.rows.map g)) →
        s ∈ t.rows.map g := by
    intro b s hsm
    cases b
    · exact mem_sortDesc _ s (by simpa using hsm)
    · exact mem_sortAsc _ s (by simpa using hsm)
  have htopmem : ∀ s ∈ pyHead top_n
      (if bottom then sortAscShare (t.rows.map g) else sortDescShare (t.rows.map g)),
      s ∈ t.rows.map g :=
    fun s hsm => hsortmem bottom s (pyHead_subset s hsm)
  have hres : ∀ s ∈ pyHead top_n
      (if bottom then sortAscShare (t.rows.map g) else sortDescShare (t.rows.map g)),
      (match (List.lookup "AC_NO" s.row).bind toIntOpt, List.lookup "AC_NAME" s.row with
        | some acV, some nm => some (⟨acV, nm, s.votes, s.total, s.share⟩ : TopEntry)
        | _, _ => none).isSome := by
    intro s hsm
    rcases List.mem_map.mp (htopmem s hsm) with ⟨r, hr, he⟩
    have hsr : s.row = r := by rw [← he]; exact scoreRow_row (hs r hr)
    rcases Option.isSome_iff_exists.mp (hrow r hr).1 with ⟨acV, hacV⟩
    rcases Option.isSome_iff_exists.mp (hrow r hr).2 with ⟨nm, hnm⟩
    rw [hsr, hacV, hnm]
    rfl
  rcases omap_total _ _ hres with ⟨results, hresults⟩
  refine ⟨⟨pyUpper party0, year, (if bottom then "bottom" else "top"), results⟩, ?_, ?_⟩
  · simp only [getTopConstituencies, ht, hpc, Bool.not_true, Bool.false_eq_true,
      if_false, hscored, hresults]
  · rw [omap_length _ _ results hresults]
    by_cases h0 : top_n = 0
    · subst h0
      simp [pyHead_zero]
    · have hneg : top_n < 0 := by omega
      rw [pyHead_length_neg hneg, hsortlen bottom]
      simp [h0]

set_option maxRecDepth 10000 in
/-- Witness for the amended C9: `top_n = -1` on the two-row table yields
2 − 1 = 1 row and no error. -/
theorem claim_C9_witness :
    ∃ pl, getTopConstituencies topD "TDP" "2014" (-1) false = some (.ok pl) ∧
      pl.results.length =
        (if (-1 : Int) = 0 then 0 else topTable.rows.length - (-(-1 : Int)).toNat) :=
  claim_C9_amended topD "TDP" "2014" topTable (-1) false
    (fun r => (scoreRow (pyUpper "TDP") r).getD ⟨[], 0, 0, 0⟩)
    (by decide) (by decide) (by with_unfolding_all decide) (by decide) (by decide)

theorem map_pair_af (y : String) (rows : List Row) (af : Row → Int) :
    ((rows.map (fun r => (y, r))).map (fun yr => af yr.2)) = rows.map af := by
  induction rows with
  | nil => rfl
  | cons a as ih => simp only [List.map_cons, ih]

theorem map_hits_ac (F : List (String × Row)) (af : Row → Int) (nmf : Row → String) :
    ((F.map (fun yr => (⟨af yr.2, .str (nmf yr.2), yr.1⟩ : SearchHit))).map (·.ac_no)) =
      F.map (fun yr => af yr.2) := by
  induction F with
  | nil => rfl
  | cons a as ih => simp only [List.map_cons, ih]

theorem flatten_pairs_ac (D : Dataset) (af : Row → Int) :
    (((D.map (fun yt => yt.2.rows.map (fun r => (yt.1, r)))).flatten).map
      (fun yr => af yr.2)) = (D.map (fun yt => yt.2.rows.map af)).flatten := by
  induction D with
  | nil => rfl
  | cons a as ih =>
    simp only [List.map_cons, List.flatten_cons, List.map_append, ih, map_pair_af]

/-- Claim C10: with an empty or whitespace-only name fragment, the stripped
upper-cased pattern is the empty string, which substring-matches every
constituency name; `search_constituency_by_name` therefore returns (no
error) one hit per distinct `ac_no` across all loaded years, first
occurrences kept in year-insertion-then-row scan order. -/
theorem claim_C10_empty_search (D : Dataset) (frag0 : String)
    (af : Row → Int) (nmf : Row → String)
    (hfrag : pyStrip frag0 = "")
    (hac : ∀ yt ∈ D, ∀ r ∈ yt.2.rows,
      (List.lookup "AC_NO" r).bind toIntOpt = some (af r))
    (hnm : ∀ yt ∈ D, ∀ r ∈ yt.2.rows, List.lookup "AC_NAME" r = some (.str (nmf r)))
    (hne : ∃ yt ∈ D, yt.2.rows ≠ []) :
    ∃ hits, searchConstituencyByName D frag0 = some (.ok hits) ∧
      hits ≠ [] ∧
      hits.map (·.ac_no) = firstOccAux [] ((D.map (fun yt => yt.2.rows.map af)).flatten) ∧
      (hits.map (·.ac_no)).Nodup ∧
      (∀ a : Int, a ∈ hits.map (·.ac_no) ↔
        a ∈ (D.map (fun yt => yt.2.rows.map af)).flatten) := by
  have hupper : pyUpper (pyStrip frag0) = "" := by rw [hfrag]; rfl
  have hmatch : ∀ yt ∈ D, ∀ r ∈ yt.2.rows,
      nameMatches (pyUpper (pyStrip frag0)) r = true := by
    intro yt hyt r hr
    rw [hupper]
    simp only [nameMatches, hnm yt hyt r hr]
    exact hasSub_nil _
  have hF : (D.map (fun yt =>
      (yt.2.rows.filter (nameMatches (pyUpper (pyStrip frag0)))).map
        (fun r => (yt.1, r)))) =
      D.map (fun yt => yt.2.rows.map (fun r => (yt.1, r))) := by
    refine List.map_congr_left (fun yt hyt => ?_)
    rw [List.filter_eq_self.mpr (fun r hr => hmatch yt hyt r hr)]
  have hmemF : ∀ yr ∈ (D.map (fun yt => yt.2.rows.map (fun r => (yt.1, r)))).flatten,
      ∃ yt ∈ D, yr.2 ∈ yt.2.rows := by
    intro yr hyr
    rcases List.mem_flatten.mp hyr with ⟨sub, hsub, hyrs⟩
    rcases List.mem_map.mp hsub with ⟨yt, hyt, he⟩
    rw [← he] at hyrs
    rcases List.mem_map.mp hyrs with ⟨r, hr, he2⟩
    exact ⟨yt, hyt, by rw [← he2]; exact hr⟩
  have homap : omap (fun yr : String × Row =>
      match (List.lookup "AC_NO" yr.2).bind toIntOpt, List.lookup "AC_NAME" yr.2 with
      | some acV, some nm => some (⟨acV, nm, yr.1⟩ : SearchHit)
      | _, _ => none)
      ((D.map (fun yt => yt.2.rows.map (fun r => (yt.1, r)))).flatten) =
      some (((D.map (fun yt => yt.2.rows.map (fun r => (yt.1, r)))).flatten).map
        (fun yr => (⟨af yr.2, .str (nmf yr.2), yr.1⟩ : SearchHit))) := by
    refine omap_map _ _ _ (fun yr hyr => ?_)
    rcases hmemF yr hyr with ⟨yt, hyt, hr⟩
    rw [hac yt hyt yr.2 hr, hnm yt hyt yr.2 hr]
  have hrun : searchByName D frag0 = some (dedupHits []
      (((D.map (fun yt => yt.2.rows.map (fun r => (yt.1, r)))).flatten).map
        (fun yr => (⟨af yr.2, .str (nmf yr.2), yr.1⟩ : SearchHit)))) := by
    simp only [searchByName, hF, homap]
  have hFne : ((D.map (fun yt => yt.2.rows.map (fun r => (yt.1, r)))).flatten) ≠ [] := by
    rcases hne with ⟨yt, hyt, hrows⟩
    rcases List.exists_mem_of_ne_nil yt.2.rows hrows with ⟨r, hr⟩
    refine List.ne_nil_of_mem (a := (yt.1, r)) ?_
    refine List.mem_flatten.mpr ⟨yt.2.rows.map (fun r => (yt.1, r)), ?_, ?_⟩
    · exact List.mem_map.mpr ⟨yt, hyt, rfl⟩
    · exact List.mem_map.mpr ⟨r, hr, rfl⟩
  have hHSne : (((D.map (fun yt => yt.2.rows.map (fun r => (yt.1, r)))).flatten).map
      (fun yr => (⟨af yr.2, .str (nmf yr.2), yr.1⟩ : SearchHit))) ≠ [] := by
    intro h
    exact hFne (List.map_eq_nil_iff.mp h)
  have hdedup_ne : dedupHits []
      (((D.map (fun yt => yt.2.rows.map (fun r => (yt.1, r)))).flatten).map
        (fun yr => (⟨af yr.2, .str (nmf yr.2), yr.1⟩ : SearchHit))) ≠ [] := by
    cases hc : (((D.map (fun yt => yt.2.rows.map (fun r => (yt.1, r)))).flatten).map
        (fun yr => (⟨af yr.2, .str (nmf yr.2), yr.1⟩ : SearchHit))) with
    | nil => exact absurd hc hHSne
    | cons h hs => simp [dedupHits]
  refine ⟨_, ?_, hdedup_ne, ?_, ?_, ?_⟩
  · simp only [searchConstituencyByName, hrun]
    rw [if_neg (fun h => hdedup_ne (List.isEmpty_iff.mp h))]
  · rw [dedupHits_map_ac, map_hits_ac, flatten_pairs_ac]
  · rw [dedupHits_map_ac]
    exact firstOccAux_nodup _ _
  · intro a
    rw [dedupHits_map_ac, map_hits_ac, flatten_pairs_ac, firstOccAux_mem]
    simp

/-- Witness for C10: a whitespace-only fragment on the fixture dataset
returns the single constituency (ac_no 1, first seen in 2014), not the
no-constituency-found error. -/
theorem claim_C10_witness :
    ∃ hits, searchConstituencyByName exD "  " = some (.ok hits) ∧
      hits ≠ [] ∧
      hits.map (·.ac_no) = firstOccAux []
        ((exD.map (fun yt => yt.2.rows.map (fun r =>
          ((List.lookup "AC_NO" r).bind toIntOpt).getD 0))).flatten) ∧
      (hits.map (·.ac_no)).Nodup ∧
      (∀ a : Int, a ∈ hits.map (·.ac_no) ↔
        a ∈ (exD.map (fun yt => yt.2.rows.map (fun r =>
          ((List.lookup "AC_NO" r).bind toIntOpt).getD 0))).flatten) :=
  claim_C10_empty_search exD "  "
    (fun r => ((List.lookup "AC_NO" r).bind toIntOpt).getD 0)
    (fun r => match List.lookup "AC_NAME" r with | some (.str s) => s | _ => "")
    (by decide) (by decide) (by decide) (by decide)

end APElection
